import Mathlib

/-
  Shallow embedding of the quantitative metrics engine of the
  quant-strategy-analytics-gcp repository (src/metrics.py, src/charts.py).

  Modelling conventions:
  * a pandas row of the canonical trade schema is a `TradeRecord`;
    `Date` is a day number (an integer), `Net P&L` a rational,
    `Month` a `Fin 12` (month names encoded by calendar index).
  * floating point is modelled by exact rationals; the IEEE value NaN,
    produced by pandas as the mean/std of an empty selection and by 0/0,
    is modelled by `none` in `PVal := Option Rat`.  The Python comparison
    `x != 0` is `true` for NaN, which `pneZero` mirrors.
  * `np.sqrt` appears only through `Real.sqrt` in the Sharpe/Sortino
    wrappers; all radicands are kept as computable rationals.
-/

namespace Quant

/-- One row of the canonical trade schema produced by the ingestion layer:
`Date`, `Net P&L`, `Year`, `Month`, `Drawdown %`, `Run-up`. -/
structure TradeRecord where
  date : Int := 0
  netPnl : Rat := 0
  year : Int := 0
  month : Fin 12 := 0
  ddPct : Rat := 0
  runUp : Rat := 0
deriving DecidableEq, Repr

/-- NaN-aware rational: `none` models the IEEE NaN that pandas produces for
the mean or standard deviation of an empty selection and for `0/0`. -/
abbrev PVal := Option Rat

/-- pandas `Series.mean()`: NaN on an empty selection, else sum over count. -/
def pmean (l : List Rat) : PVal :=
  if l.length = 0 then none else some (l.sum / l.length)

/-- NaN-propagating division; a zero denominator is also sent to the
non-numeric result (numpy emits NaN for `0/0`). -/
def pdiv (a b : PVal) : PVal :=
  match a, b with
  | some x, some y => if y = 0 then none else some (x / y)
  | _, _ => none

/-- NaN-propagating multiplication by a scalar. -/
def pmul (a : PVal) (c : Rat) : PVal := a.map (fun x => x * c)

/-- NaN-propagating absolute value. -/
def pabs (a : PVal) : PVal := a.map (fun x => |x|)

/-- The Python test `x != 0`: `True` for NaN (this is how a NaN denominator
slips through the zero-denominator guards in metrics.py). -/
def pneZero : PVal → Bool
  | none => true
  | some q => !(q == 0)

/-- Embeds `np.cumsum`: the list of prefix sums. -/
def cumsum : List Rat → List Rat
  | [] => []
  | x :: xs => x :: (cumsum xs).map (fun y => x + y)

/-- Helper for `cummax`: running maxima continuing from the maximum `m`. -/
def cummaxAux (m : Rat) : List Rat → List Rat
  | [] => []
  | y :: ys => max m y :: cummaxAux (max m y) ys

/-- pandas `Series.cummax()`: the running maximum. -/
def cummax : List Rat → List Rat
  | [] => []
  | x :: xs => x :: cummaxAux x xs

/-- Minimum of a rational list, `none` on the empty list. -/
def listMin : List Rat → Option Rat
  | [] => none
  | x :: xs =>
    match listMin xs with
    | none => some x
    | some m => some (min x m)

/-- pandas `Series.min()`: NaN entries are skipped; all-NaN gives NaN. -/
def pminSkipNan (l : List PVal) : PVal := listMin (l.filterMap id)

/-- Insert into an ascending list (helper for `sortAsc`). -/
def insertAsc {α : Type} [LinearOrder α] (x : α) : List α → List α
  | [] => [x]
  | y :: ys => if x ≤ y then x :: y :: ys else y :: insertAsc x ys

/-- Ascending insertion sort (models the sorted order of pandas group keys
and of Python `sorted`). -/
def sortAsc {α : Type} [LinearOrder α] : List α → List α
  | [] => []
  | x :: xs => insertAsc x (sortAsc xs)

/-- Embeds `df['Date'].min()` (0 on an empty frame; the engine guards emptiness). -/
def dateMin (df : List TradeRecord) : Int :=
  match df.map TradeRecord.date with
  | [] => 0
  | x :: xs => xs.foldl min x

/-- Embeds `df['Date'].max()` (0 on an empty frame). -/
def dateMax (df : List TradeRecord) : Int :=
  match df.map TradeRecord.date with
  | [] => 0
  | x :: xs => xs.foldl max x

/-- Embeds `df.set_index('Date')['Net P&L'].resample('D').sum().fillna(0)`:
one entry per calendar day from the first to the last trade date, the sum
of the `Net P&L` of the trades of that day (0 for days without trades). -/
def dailyPnl (df : List TradeRecord) : List Rat :=
  (List.range ((dateMax df - dateMin df).toNat + 1)).map
    (fun (k : Nat) =>
      ((df.filter (fun r => decide (r.date = dateMin df + (k : Int)))).map
        TradeRecord.netPnl).sum)

/-- Embeds `total_profit = df['Net P&L'].sum()` (metrics.py:99). -/
def total_profit (df : List TradeRecord) : Rat :=
  (df.map TradeRecord.netPnl).sum

/-- Embeds `roi = (total_profit / investment) * 100` (metrics.py:100). -/
def roi (df : List TradeRecord) (investment : Rat) : Rat :=
  total_profit df / investment * 100

/-- Embeds `win_rate` (metrics.py:101). -/
def win_rate (df : List TradeRecord) : Rat :=
  if 0 < df.length then
    ((df.filter (fun r => decide (0 < r.netPnl))).length : Rat) / df.length * 100
  else 0

/-- Embeds `cum_pnl = df['Net P&L'].cumsum()` (metrics.py:103). -/
def cum_pnl (df : List TradeRecord) : List Rat :=
  cumsum (df.map TradeRecord.netPnl)

/-- Embeds `investment + cum_pnl`: the running equity series. -/
def equitySeries (df : List TradeRecord) (investment : Rat) : List Rat :=
  (cum_pnl df).map (fun c => investment + c)

/-- Embeds `peak = (investment + cum_pnl).cummax()` (metrics.py:104). -/
def peakSeries (df : List TradeRecord) (investment : Rat) : List Rat :=
  cummax (equitySeries df investment)

/-- Embeds `dd = (investment + cum_pnl) - peak` (metrics.py:105). -/
def ddSeries (df : List TradeRecord) (investment : Rat) : List Rat :=
  (equitySeries df investment).zipWith (fun e p => e - p) (peakSeries df investment)

/-- Embeds `dd_pct = (dd / peak) * 100` (metrics.py:106); `0/0` is NaN. -/
def ddPctSeries (df : List TradeRecord) (investment : Rat) : List PVal :=
  (ddSeries df investment).zipWith
    (fun d p => pmul (pdiv (some d) (some p)) 100) (peakSeries df investment)

/-- Embeds `max_dd = dd_pct.min()` (metrics.py:107); pandas min skips NaN. -/
def max_dd (df : List TradeRecord) (investment : Rat) : PVal :=
  pminSkipNan (ddPctSeries df investment)

/-- Embeds `avg_pnl_per_trade` (metrics.py:109). -/
def avg_pnl_per_trade (df : List TradeRecord) : Rat :=
  if 0 < df.length then total_profit df / df.length else 0

/-- Embeds `days_active = (df['Date'].max() - df['Date'].min()).days` (metrics.py:111). -/
def days_active (df : List TradeRecord) : Int := dateMax df - dateMin df

/-- Embeds `years_active = days_active / 365.25` (metrics.py:113). -/
def years_active (df : List TradeRecord) : Rat :=
  (days_active df : Rat) / 365.25

/-- Embeds `trades_per_year` (metrics.py:114-117). -/
def trades_per_year (df : List TradeRecord) : Rat :=
  if 0 < years_active df then (df.length : Rat) / years_active df
  else (df.length : Rat)

/-- Embeds `daily_rets = daily_df / investment` (metrics.py:120). -/
def daily_rets (df : List TradeRecord) (investment : Rat) : List Rat :=
  (dailyPnl df).map (fun x => x / investment)

/-- Embeds `daily_rf = (rf_rate / 100) / 252` (metrics.py:121). -/
def daily_rf (rf_rate : Rat) : Rat := rf_rate / 100 / 252

/-- Embeds `daily_excess_rets = daily_rets - daily_rf` (metrics.py:123). -/
def daily_excess_rets (df : List TradeRecord) (investment rf_rate : Rat) : List Rat :=
  (daily_rets df investment).map (fun x => x - daily_rf rf_rate)

/-- Mean of a nonempty rational list (used only on nonempty series). -/
def listMean (l : List Rat) : Rat := l.sum / l.length

/-- The square of `daily_rets.std()` (pandas, ddof = 1): NaN when the series
has at most one entry, else the sample variance (metrics.py:124). -/
def daily_std_sq (df : List TradeRecord) (investment : Rat) : PVal :=
  let l := daily_rets df investment
  if l.length ≤ 1 then none
  else some (((l.map (fun x => (x - listMean l) ^ 2)).sum) / ((l.length : Rat) - 1))

/-- Embeds `sharpe = (daily_excess_rets.mean() / daily_std) * np.sqrt(252)
if daily_std != 0 else 0` (metrics.py:125).  `daily_std = sqrt v` with the
sample variance `v ≥ 0`, so the guard `daily_std != 0` passes exactly when
`v` is NaN (NaN != 0 is True in Python, and the NaN then propagates) or
when `v ≠ 0`. -/
noncomputable def sharpe (df : List TradeRecord) (investment rf_rate : Rat) : Option ℝ :=
  match daily_std_sq df investment with
  | none => none
  | some v =>
    if v = 0 then some 0
    else some ((listMean (daily_excess_rets df investment rf_rate) : ℝ)
      / Real.sqrt (v : ℝ) * Real.sqrt 252)

/-- Embeds `neg_excess_rets = daily_rets[daily_rets < daily_rf] - daily_rf`
(metrics.py:127): only the days whose return is strictly below `daily_rf`
are kept before subtracting. -/
def neg_excess_rets (df : List TradeRecord) (investment rf_rate : Rat) : List Rat :=
  ((daily_rets df investment).filter (fun x => decide (x < daily_rf rf_rate))).map
    (fun x => x - daily_rf rf_rate)

/-- The radicand of `downside_dev = np.sqrt((neg_excess_rets ** 2).mean())`
(metrics.py:128): a pandas mean over the FILTERED selection, hence NaN when no
day is below `daily_rf`. -/
def downside_mean_sq (df : List TradeRecord) (investment rf_rate : Rat) : PVal :=
  pmean ((neg_excess_rets df investment rf_rate).map (fun x => x ^ 2))

/-- Embeds `downside_dev = np.sqrt((neg_excess_rets ** 2).mean())` (metrics.py:128). -/
noncomputable def downside_dev (df : List TradeRecord) (investment rf_rate : Rat) :
    Option ℝ :=
  (downside_mean_sq df investment rf_rate).map (fun q => Real.sqrt (q : ℝ))

/-- Embeds `sortino = (daily_excess_rets.mean() / downside_dev) * np.sqrt(252)
if downside_dev != 0 else 0` (metrics.py:129); as for `sharpe`, the structure
follows from `sqrt v = 0 ↔ v = 0` on the nonnegative radicand, and a NaN
`downside_dev` passes the guard and propagates. -/
noncomputable def sortino (df : List TradeRecord) (investment rf_rate : Rat) : Option ℝ :=
  match downside_mean_sq df investment rf_rate with
  | none => none
  | some v =>
    if v = 0 then some 0
    else some ((listMean (daily_excess_rets df investment rf_rate) : ℝ)
      / Real.sqrt (v : ℝ) * Real.sqrt 252)

/-- Embeds `gains = daily_rets[daily_rets > 0].sum()` (metrics.py:131). -/
def gains (df : List TradeRecord) (investment : Rat) : Rat :=
  ((daily_rets df investment).filter (fun x => decide (0 < x))).sum

/-- Embeds `losses = abs(daily_rets[daily_rets < 0].sum())` (metrics.py:132). -/
def losses (df : List TradeRecord) (investment : Rat) : Rat :=
  |((daily_rets df investment).filter (fun x => decide (x < 0))).sum|

/-- Embeds `omega = gains / losses if losses != 0 else 0` (metrics.py:133). -/
def omega (df : List TradeRecord) (investment : Rat) : Rat :=
  if losses df investment ≠ 0 then gains df investment / losses df investment else 0

/-- pandas `Series.quantile(q)` with the default linear interpolation,
over the sorted values. -/
def quantile (l : List Rat) (q : Rat) : Rat :=
  let s := sortAsc l
  let pos : Rat := q * ((s.length : Rat) - 1)
  let i : Nat := (Int.floor pos).toNat
  let frac : Rat := pos - (i : Rat)
  s.getD i 0 + frac * (s.getD (i + 1) 0 - s.getD i 0)

/-- Embeds `p95 = daily_rets.quantile(0.95)` (metrics.py:135). -/
def p95 (df : List TradeRecord) (investment : Rat) : Rat :=
  quantile (daily_rets df investment) (95 / 100)

/-- Embeds `p05 = abs(daily_rets.quantile(0.05))` (metrics.py:136). -/
def p05 (df : List TradeRecord) (investment : Rat) : Rat :=
  |quantile (daily_rets df investment) (5 / 100)|

/-- Embeds `tail_ratio = p95 / p05 if p05 != 0 else 0` (metrics.py:137). -/
def tail_ratio (df : List TradeRecord) (investment : Rat) : Rat :=
  if p05 df investment ≠ 0 then p95 df investment / p05 df investment else 0

/-- Embeds `gross_profit = df[df['Net P&L'] > 0]['Net P&L'].sum()` (metrics.py:139). -/
def gross_profit (df : List TradeRecord) : Rat :=
  ((df.filter (fun r => decide (0 < r.netPnl))).map TradeRecord.netPnl).sum

/-- Embeds `gross_loss = abs(df[df['Net P&L'] < 0]['Net P&L'].sum())` (metrics.py:140). -/
def gross_loss (df : List TradeRecord) : Rat :=
  |((df.filter (fun r => decide (r.netPnl < 0))).map TradeRecord.netPnl).sum|

/-- Embeds `profit_factor = gross_profit / gross_loss if gross_loss != 0 else 0`
(metrics.py:141). -/
def profit_factor (df : List TradeRecord) : Rat :=
  if gross_loss df ≠ 0 then gross_profit df / gross_loss df else 0

/-- Embeds `avg_win = df[df['Net P&L'] > 0]['Net P&L'].mean()` (metrics.py:143):
NaN when there is no winning trade. -/
def avg_win (df : List TradeRecord) : PVal :=
  pmean ((df.filter (fun r => decide (0 < r.netPnl))).map TradeRecord.netPnl)

/-- Embeds `avg_loss = abs(df[df['Net P&L'] < 0]['Net P&L'].mean())` (metrics.py:144):
NaN when there is no losing trade. -/
def avg_loss (df : List TradeRecord) : PVal :=
  pabs (pmean ((df.filter (fun r => decide (r.netPnl < 0))).map TradeRecord.netPnl))

/-- Embeds `rr_ratio = avg_win / avg_loss if avg_loss != 0 else 0` (metrics.py:145);
a NaN `avg_loss` passes the `!= 0` guard. -/
def rr_ratio (df : List TradeRecord) : PVal :=
  if pneZero (avg_loss df) then pdiv (avg_win df) (avg_loss df) else some 0

/-- Embeds `annual_return_pct` (metrics.py:148-151). -/
def annual_return_pct (df : List TradeRecord) (investment : Rat) : Rat :=
  if 0 < years_active df then total_profit df / investment / years_active df * 100
  else 0

/-- Embeds `calmar = abs(annual_return_pct / max_dd) if max_dd != 0 else 0`
(metrics.py:154-157); a NaN `max_dd` passes the guard and propagates. -/
def calmar (df : List TradeRecord) (investment : Rat) : PVal :=
  if pneZero (max_dd df investment) then
    pabs (pdiv (some (annual_return_pct df investment)) (max_dd df investment))
  else some 0

/-- The 14-field result dictionary of `calculate_single_sheet_metrics`
(metrics.py:159-165). -/
structure MetricsResult where
  netProfit : Rat
  roiPct : Rat
  profitPerTrade : Rat
  sharpeR : Option ℝ
  sortinoR : Option ℝ
  calmarV : PVal
  omegaV : Rat
  tailRatioV : Rat
  profitFactorV : Rat
  riskReward : PVal
  winRatePct : Rat
  maxDdPct : PVal
  trades : Nat
  tradesPerYear : Rat

/-- Embeds `calculate_single_sheet_metrics` (metrics.py:85-165): `None` on an empty
frame, else the full 14-field dictionary. -/
noncomputable def calculate_single_sheet_metrics (df : List TradeRecord)
    (investment rf_rate : Rat) : Option MetricsResult :=
  if df = [] then none
  else some
    { netProfit := total_profit df
      roiPct := roi df investment
      profitPerTrade := avg_pnl_per_trade df
      sharpeR := sharpe df investment rf_rate
      sortinoR := sortino df investment rf_rate
      calmarV := calmar df investment
      omegaV := omega df investment
      tailRatioV := tail_ratio df investment
      profitFactorV := profit_factor df
      riskReward := rr_ratio df
      winRatePct := win_rate df
      maxDdPct := max_dd df investment
      trades := df.length
      tradesPerYear := trades_per_year df }

/-- Maximal consecutive runs of rows with `Drawdown % < 0`, in row order
(the `groupby` on the cumulative sum of sign changes, metrics.py:28-29).
The accumulator carries the current underwater run in reverse. -/
def underwaterRunsAux : List TradeRecord → List TradeRecord → List (List TradeRecord)
  | [], acc => if acc = [] then [] else [acc.reverse]
  | r :: rest, acc =>
    if r.ddPct < 0 then underwaterRunsAux rest (r :: acc)
    else if acc = [] then underwaterRunsAux rest []
    else acc.reverse :: underwaterRunsAux rest []

/-- The maximal contiguous underwater groups of a frame. -/
def underwaterRuns (df : List TradeRecord) : List (List TradeRecord) :=
  underwaterRunsAux df []

/-- Embeds `(group['Date'].max() - group['Date'].min()).days` for one group
(metrics.py:33-35). -/
def groupDuration (g : List TradeRecord) : Int := dateMax g - dateMin g

/-- Embeds `calculate_drawdown_duration` (metrics.py:12-38): 0 on an empty frame or
when no row is underwater, else the maximum group duration in days. -/
def calculate_drawdown_duration (df : List TradeRecord) : Int :=
  if df = [] then 0
  else (underwaterRuns df).foldl (fun acc g => max acc (groupDuration g)) 0

/-- One row of `calculate_loss_breakdown` (metrics.py:275-280):
severity label, count, total loss. -/
structure LossBucketRow where
  severity : String
  count : Nat
  totalLoss : Rat
deriving DecidableEq, Repr

/-- Embeds `calculate_loss_breakdown` (metrics.py:255-281): empty result when there
is no losing trade, else the four severity buckets. -/
def calculate_loss_breakdown (df : List TradeRecord) : List LossBucketRow :=
  let losing := df.filter (fun r => decide (r.netPnl < 0))
  if losing = [] then []
  else
    let b1 := losing.filter (fun r => decide (r.netPnl < 0) && decide (-3000 ≤ r.netPnl))
    let b2 := losing.filter (fun r => decide (r.netPnl < -3000) && decide (-5000 ≤ r.netPnl))
    let b3 := losing.filter (fun r => decide (r.netPnl < -5000) && decide (-10000 ≤ r.netPnl))
    let b4 := losing.filter (fun r => decide (r.netPnl < -10000))
    [ { severity := "Small (0 - 3k)", count := b1.length,
        totalLoss := (b1.map TradeRecord.netPnl).sum },
      { severity := "Medium (3k - 5k)", count := b2.length,
        totalLoss := (b2.map TradeRecord.netPnl).sum },
      { severity := "Large (5k - 10k)", count := b3.length,
        totalLoss := (b3.map TradeRecord.netPnl).sum },
      { severity := "Massive (> 10k)", count := b4.length,
        totalLoss := (b4.map TradeRecord.netPnl).sum } ]

/-- The two reinvestment modes of `calculate_compounding_simulation`. -/
inductive CompMode where
  | linear
  | proportional
deriving DecidableEq, Repr

/-- One row of the compounding simulation (metrics.py:206-210).  The source
stores the scaling factor as a formatted string; the numeric value is kept. -/
structure CompRow where
  year : Int
  startBalance : Rat
  scalingFactor : Rat
  rawProfit : Rat
  taxFee : Rat
  netProfit : Rat
  endBalance : Rat
  yearlyGrowthPct : Rat
  linearEquityRef : Rat
deriving DecidableEq, Repr

/-- Embeds `yearly_groups = df.groupby('Year')['Net P&L'].sum()` at one key. -/
def yearly_groups (df : List TradeRecord) (y : Int) : Rat :=
  ((df.filter (fun r => decide (r.year = y))).map TradeRecord.netPnl).sum

/-- Embeds `years_list = sorted(yearly_groups.index.unique())` (metrics.py:185). -/
def years_list (df : List TradeRecord) : List Int :=
  sortAsc ((df.map TradeRecord.year).dedup)

/-- The loop body of `calculate_compounding_simulation` (metrics.py:187-211),
carrying the enumeration index `i`, `current_equity` and `linear_equity`. -/
def compLoop (initial_capital tax_rate : Rat) (mode : CompMode) :
    List (Int × Rat) → Nat → Rat → Rat → List CompRow
  | [], _, _, _ => []
  | (year, raw) :: rest, i, current, linear =>
    let scaling : Rat :=
      match mode with
      | .linear => 1 + (i : Rat)
      | .proportional =>
        let s := current / initial_capital
        if s < 1 / 10 then 1 / 10 else s
    let gross := raw * scaling
    let taxDed : Rat := if 0 < gross then gross * (tax_rate / 100) else 0
    let net := gross - taxDed
    let startBal := current
    let endBal := startBal + net
    let growth : Rat := if 0 < startBal then net / startBal * 100 else 0
    let linrEq := linear + raw
    { year := year, startBalance := startBal, scalingFactor := scaling,
      rawProfit := raw, taxFee := taxDed, netProfit := net,
      endBalance := endBal, yearlyGrowthPct := growth,
      linearEquityRef := linrEq } ::
      compLoop initial_capital tax_rate mode rest (i + 1) endBal linrEq

/-- Embeds `calculate_compounding_simulation` (metrics.py:168-213). -/
def calculate_compounding_simulation (df : List TradeRecord)
    (initial_capital : Rat) (mode : CompMode) (tax_rate : Rat) : List CompRow :=
  compLoop initial_capital tax_rate mode
    ((years_list df).map (fun y => (y, yearly_groups df y)))
    0 initial_capital initial_capital

/-- The pivot cell of `create_matrix`: summed `Net P&L` of one (year, month),
0 when the combination is absent (metrics.py:295-300). -/
def monthly_sum (df : List TradeRecord) (y : Int) (m : Fin 12) : Rat :=
  ((df.filter (fun r => decide (r.year = y) && decide (r.month = m))).map
    TradeRecord.netPnl).sum

/-- Embeds `pivot['Yearly Total'] = pivot.sum(axis=1)` for one year: the sum of its
12 month columns (metrics.py:302). -/
def yearly_total (df : List TradeRecord) (y : Int) : Rat :=
  ((List.finRange 12).map (fun m => monthly_sum df y m)).sum

/-- Embeds `pivot['Yearly Return (%)']` for one year (metrics.py:303). -/
def yearly_return (df : List TradeRecord) (investment : Rat) (y : Int) : Rat :=
  yearly_total df y / investment * 100

/-- One year row of the Month-by-Year matrix. -/
structure MatrixRow where
  yearLabel : String
  months : List Rat
  yearlyTotal : Rat
  yearlyReturnPct : Rat
deriving DecidableEq, Repr

/-- The matrix returned by `create_matrix`: the per-year rows and the
appended Grand Total row. -/
structure MonthlyMatrix where
  rows : List MatrixRow
  grandTotal : MatrixRow
deriving DecidableEq, Repr

/-- Embeds `create_matrix` (metrics.py:284-311): pivot with zero fill, per-year
totals and returns, and a Grand Total row whose columns are the column sums
(`pivot.sum(axis=0)`) except that its `Yearly Return (%)` entry is then
overwritten with `grand_total['Yearly Total'] / investment * 100`
(metrics.py:305-306). -/
def create_matrix (df : List TradeRecord) (investment : Rat) : MonthlyMatrix :=
  let years := years_list df
  { rows := years.map (fun y =>
      { yearLabel := toString y
        months := (List.finRange 12).map (fun m => monthly_sum df y m)
        yearlyTotal := yearly_total df y
        yearlyReturnPct := yearly_return df investment y })
    grandTotal :=
      { yearLabel := "Grand Total"
        months := (List.finRange 12).map
          (fun m => (years.map (fun y => monthly_sum df y m)).sum)
        yearlyTotal := (years.map (fun y => yearly_total df y)).sum
        yearlyReturnPct :=
          (years.map (fun y => yearly_total df y)).sum / investment * 100 } }

/-- Embeds `apply_slippage` (metrics.py:66-81): the frame itself when it is empty or
the slippage is 0, else a fresh frame with `Net P&L` reduced by the slippage. -/
def apply_slippage (df : List TradeRecord) (slippage_per_trade : Rat) :
    List TradeRecord :=
  if df = [] ∨ slippage_per_trade = 0 then df
  else df.map (fun r => { r with netPnl := r.netPnl - slippage_per_trade })

/-- One leaderboard row: a metrics result tagged with the strategy name
stripped of the `.xlsx` extension (metrics.py:338). -/
structure LeaderboardRow where
  strategy : String
  metrics : MetricsResult

/-- The date-window mask `(df['Date'] >= start) & (df['Date'] <= end)`
(metrics.py:332), inclusive at both ends. -/
def windowFilter (df : List TradeRecord) (start_date end_date : Int) :
    List TradeRecord :=
  df.filter (fun r => decide (start_date ≤ r.date) && decide (r.date ≤ end_date))

/-- Embeds `get_optimized_leaderboard` (metrics.py:314-340): per strategy, filter to
the window, apply slippage, compute metrics, and append a row only when the
metrics dictionary is truthy (a strategy whose frame is empty yields `None`
and is skipped). -/
noncomputable def get_optimized_leaderboard
    (pairs : List (String × List TradeRecord))
    (start_date end_date : Int) (investment rf_rate slippage : Rat) :
    List LeaderboardRow :=
  pairs.foldr
    (fun p acc =>
      match calculate_single_sheet_metrics
          (apply_slippage (windowFilter p.2 start_date end_date) slippage)
          investment rf_rate with
      | some m => { strategy := p.1.replace ".xlsx" "", metrics := m } :: acc
      | none => acc)
    []

/-- The loop body of `plot_monte_carlo` (charts.py:157-163): each simulation
takes `sim_curve[-1]` of the cumulative sum of a shuffled copy; on an empty
array that index raises `IndexError`, modelled by `none`. -/
def monte_carlo_finals (perms : List (List Rat)) : Option (List Rat) :=
  perms.mapM (fun p => (cumsum p).getLast?)

/-- Embeds `np.mean(final_vals)` over the collected terminal values: the second
component returned by `plot_monte_carlo` (charts.py:166), reached only when
no simulation raised. -/
def monte_carlo_expected (perms : List (List Rat)) : Option PVal :=
  (monte_carlo_finals perms).map pmean

/-- A heap of pandas DataFrames: cell `i` holds the records of the frame the
reference `i` points to.  Mutation-relevant operations are modelled as
explicit store transformers so that aliasing is observable. -/
abbrev DfStore := List (List TradeRecord)

/-- Dereference a frame. -/
def readDf (s : DfStore) (ref : Nat) : List TradeRecord := s.getD ref []

/-- Embeds `apply_slippage` as a store operation (metrics.py:66-81): the early
return hands back the SAME reference; otherwise `df.copy()` allocates a new
cell and only that fresh cell receives the adjusted `Net P&L`. -/
def apply_slippage_op (s : DfStore) (ref : Nat) (slippage_per_trade : Rat) :
    DfStore × Nat :=
  let df := readDf s ref
  if df = [] ∨ slippage_per_trade = 0 then (s, ref)
  else
    (s ++ [df.map (fun r => { r with netPnl := r.netPnl - slippage_per_trade })],
      s.length)

/-- Embeds `df_filtered = df_raw.loc[d_mask].copy()` as a store operation
(metrics.py:332-333): always allocates a fresh cell holding the in-window
records. -/
def filter_window_op (s : DfStore) (ref : Nat) (start_date end_date : Int) :
    DfStore × Nat :=
  (s ++ [windowFilter (readDf s ref) start_date end_date], s.length)

/-- The per-strategy transformation of the leaderboard loop
(metrics.py:332-334): window filter, then slippage adjustment. -/
def leaderboard_transform_op (s : DfStore) (ref : Nat)
    (start_date end_date : Int) (slippage : Rat) : DfStore × Nat :=
  let fw := filter_window_op s ref start_date end_date
  apply_slippage_op fw.1 fw.2 slippage

/-! ### Concrete example datasets -/

/-- Three one-trade days, one of them losing: 10, -10, 10 on investment 100. -/
def dfSortinoEx : List TradeRecord :=
  [{ date := 0, netPnl := 10 }, { date := 1, netPnl := -10 }, { date := 2, netPnl := 10 }]

/-- A single winning trade: no losing trade, a one-day daily series. -/
def dfWinOnly : List TradeRecord := [{ date := 0, netPnl := 100 }]

/-- Two heavy losses on investment 100: the running equity (and hence the
running peak) goes negative. -/
def dfNegEquity : List TradeRecord :=
  [{ date := 0, netPnl := -300 }, { date := 1, netPnl := -100 }]

/-- Yearly profits 10000 (2020) and 20000 (2021): the compounding example of
the specification. -/
def dfTwoYears : List TradeRecord :=
  [{ date := 0, netPnl := 10000, year := 2020 },
   { date := 400, netPnl := 20000, year := 2021 }]

/-- A one-frame store for the aliasing observation. -/
def dfSingleFrame : List TradeRecord := [{ date := 0, netPnl := 5 }]

/-! ### Helper lemmas -/

theorem cumsum_ne_nil {l : List Rat} (h : l ≠ []) : cumsum l ≠ [] := by
  cases l with
  | nil => exact absurd rfl h
  | cons x xs => simp [cumsum]

theorem cumsum_length (l : List Rat) : (cumsum l).length = l.length := by
  induction l with
  | nil => rfl
  | cons x xs ih => simp [cumsum, ih]

theorem getLast?_cons_of_ne {α : Type} {a : α} {t : List α} (h : t ≠ []) :
    (a :: t).getLast? = t.getLast? := by
  cases t with
  | nil => exact absurd rfl h
  | cons b u => exact List.getLast?_cons_cons

theorem cumsum_getLast {l : List Rat} (h : l ≠ []) :
    (cumsum l).getLast? = some l.sum := by
  induction l with
  | nil => exact absurd rfl h
  | cons x xs ih =>
    cases xs with
    | nil => simp [cumsum]
    | cons y ys =>
      have hne : cumsum (y :: ys) ≠ [] := cumsum_ne_nil (by simp)
      have hmap : ((cumsum (y :: ys)).map (fun z => x + z)) ≠ [] := by
        simpa using hne
      rw [cumsum, getLast?_cons_of_ne hmap, List.getLast?_map,
        ih (by simp)]
      simp [add_assoc]

theorem pmean_const {l : List Rat} {s : Rat} (h : l ≠ [])
    (hall : ∀ x ∈ l, x = s) : pmean l = some s := by
  have hlen : l.length ≠ 0 := by simpa using (List.length_pos.mpr h).ne'
  have hsum : l.sum = l.length • s := List.sum_eq_card_nsmul l s hall
  unfold pmean
  rw [if_neg hlen, hsum]
  have : (l.length • s : Rat) = (l.length : Rat) * s := by
    simp [nsmul_eq_mul]
  rw [this, mul_div_assoc, mul_comm]
  congr 1
  field_simp

theorem mapM_eq_map_of_some {α β : Type} (f : α → Option β) (g : α → β) :
    ∀ (l : List α), (∀ a ∈ l, f a = some (g a)) → l.mapM f = some (l.map g) := by
  intro l
  induction l with
  | nil => intro _; rfl
  | cons a t ih =>
    intro h
    rw [List.mapM_cons, h a (by simp), ih (fun b hb => h b (by simp [hb]))]
    rfl

theorem insertAsc_perm {α : Type} [LinearOrder α] (x : α) (l : List α) :
    (insertAsc x l).Perm (x :: l) := by
  induction l with
  | nil => simp [insertAsc]
  | cons y ys ih =>
    by_cases h : x ≤ y
    · simp [insertAsc, h]
    · rw [insertAsc, if_neg h]
      exact (ih.cons y).trans (List.Perm.swap x y ys)

theorem sortAsc_perm {α : Type} [LinearOrder α] (l : List α) :
    (sortAsc l).Perm l := by
  induction l with
  | nil => simp [sortAsc]
  | cons x xs ih => exact (insertAsc_perm x (sortAsc xs)).trans (ih.cons x)

/-! ### C3: empty-dataset behavior -/

/-- C3, counterexample.  The Monte Carlo plotting loop indexes `sim_curve[-1]`
of an empty cumulative array (charts.py:161), which raises `IndexError`
(modelled by `none`): with the default 50 simulations and an empty dataset
the component throws instead of returning a defined empty value. -/
theorem monte_carlo_empty_raises :
    monte_carlo_finals (List.replicate 50 ([] : List Rat)) = none := by decide

/-- C3, amended.  On the empty dataset, metrics return `None`, the drawdown
duration is 0, the compounding simulation and the loss breakdown are empty,
the monthly matrix has no year rows — but the Monte Carlo path simulation
fails (models the `IndexError` from `sim_curve[-1]` on an empty array). -/
theorem empty_dataset_components (investment rf_rate cap tax : Rat)
    (mode : CompMode) :
    calculate_single_sheet_metrics [] investment rf_rate = none ∧
    calculate_drawdown_duration [] = 0 ∧
    calculate_compounding_simulation [] cap mode tax = [] ∧
    calculate_loss_breakdown [] = [] ∧
    (create_matrix [] investment).rows = [] ∧
    monte_carlo_finals (List.replicate 50 []) = none := by
  refine ⟨by simp [calculate_single_sheet_metrics], rfl, rfl, rfl, rfl, by decide⟩

/-! ### C4: Monte Carlo permutation invariance -/

/-- C4.  Every shuffled cumulative path of a nonempty P&L list terminates at
the total sum of the original list, and the reported mean of the terminal
values over any nonempty batch of simulations equals that total. -/
theorem monte_carlo_terminal_eq_total (l : List Rat) (perms : List (List Rat))
    (hl : l ≠ []) (hperms : perms ≠ [])
    (hp : ∀ p ∈ perms, p.Perm l) :
    monte_carlo_finals perms = some (perms.map (fun _ => l.sum)) ∧
    monte_carlo_expected perms = some (some l.sum) := by
  have key : ∀ p ∈ perms, (cumsum p).getLast? = some l.sum := by
    intro p hpmem
    have hlen := (hp p hpmem).length_eq
    have hpne : p ≠ [] := by
      intro hnil
      rw [hnil] at hlen
      exact hl (List.length_eq_zero.mp hlen.symm)
    rw [cumsum_getLast hpne, (hp p hpmem).sum_eq]
  have h1 : monte_carlo_finals perms = some (perms.map (fun _ => l.sum)) :=
    mapM_eq_map_of_some _ _ perms key
  refine ⟨h1, ?_⟩
  unfold monte_carlo_expected
  rw [h1, Option.map_some']
  congr 1
  exact pmean_const (by simpa using hperms) (by simp)

/-- C4, witness at `l = [1, 2]` with two explicit permutations. -/
theorem monte_carlo_terminal_eq_total_witness :
    monte_carlo_finals [[2, 1], [1, 2]] = some [3, 3] ∧
    monte_carlo_expected [[2, 1], [1, 2]] = some (some 3) := by
  have h := monte_carlo_terminal_eq_total [1, 2] [[2, 1], [1, 2]]
    (by decide) (by decide) (by with_unfolding_all decide)
  constructor
  · rw [h.1]; with_unfolding_all decide
  · rw [h.2]; with_unfolding_all decide

/-! ### C9: no in-place mutation, but an aliased early return -/

/-- C9.  Evaluating the cost adjustment at the failing input: with
`slippage_per_trade = 0`, `apply_slippage` takes the early return
(metrics.py:77-78) and hands back the untouched store together with the SAME
reference — no mutation, but also not the new DataFrame that the claim and
the function docstring promise. -/
theorem apply_slippage_zero_aliases_input :
    apply_slippage_op [dfSingleFrame] 0 0 = ([dfSingleFrame], 0) := by decide

/-! ### C10: Profit/Trade = Net Profit / Trades -/

/-- C10.  For a nonempty dataset the `Profit/Trade` field of the metrics
result equals the `Net Profit` field divided by the `Trades` field. -/
theorem profit_per_trade_eq_ratio (df : List TradeRecord)
    (investment rf_rate : Rat) (hdf : df ≠ []) (hinv : 0 < investment) :
    (calculate_single_sheet_metrics df investment rf_rate).map
        MetricsResult.profitPerTrade
      = (calculate_single_sheet_metrics df investment rf_rate).map
        (fun m => m.netProfit / (m.trades : Rat)) := by
  simp only [calculate_single_sheet_metrics, if_neg hdf, Option.map_some']
  congr 1
  simp [avg_pnl_per_trade, List.length_pos.mpr hdf]

/-- C10, witness at the single-winning-trade dataset. -/
theorem profit_per_trade_eq_ratio_witness :
    dfWinOnly ≠ [] ∧ (0 : Rat) < 100 ∧
    (calculate_single_sheet_metrics dfWinOnly 100 0).map
        MetricsResult.profitPerTrade
      = (calculate_single_sheet_metrics dfWinOnly 100 0).map
        (fun m => m.netProfit / (m.trades : Rat)) :=
  ⟨by decide, by norm_num,
    profit_per_trade_eq_ratio dfWinOnly 100 0 (by decide) (by norm_num)⟩

/-! ### C5: linear compounding mode -/

/-- Placeholder row for out-of-range `getD` access. -/
def dummyCompRow : CompRow :=
  { year := 0, startBalance := 0, scalingFactor := 0, rawProfit := 0,
    taxFee := 0, netProfit := 0, endBalance := 0, yearlyGrowthPct := 0,
    linearEquityRef := 0 }

theorem compLoop_linear_getD (cap tax : Rat) :
    ∀ (groups : List (Int × Rat)) (i : Nat) (cur lin : Rat) (j : Nat),
      j < (compLoop cap tax .linear groups i cur lin).length →
      ((compLoop cap tax .linear groups i cur lin).getD j dummyCompRow).scalingFactor
          = 1 + ((i + j : Nat) : Rat) ∧
      ((compLoop cap tax .linear groups i cur lin).getD j dummyCompRow).taxFee
          = (if 0 < ((compLoop cap tax .linear groups i cur lin).getD j dummyCompRow).rawProfit
                * ((compLoop cap tax .linear groups i cur lin).getD j dummyCompRow).scalingFactor
             then ((compLoop cap tax .linear groups i cur lin).getD j dummyCompRow).rawProfit
                * ((compLoop cap tax .linear groups i cur lin).getD j dummyCompRow).scalingFactor
                * (tax / 100)
             else 0) ∧
      ((compLoop cap tax .linear groups i cur lin).getD j dummyCompRow).endBalance
          = ((compLoop cap tax .linear groups i cur lin).getD j dummyCompRow).startBalance
            + ((compLoop cap tax .linear groups i cur lin).getD j dummyCompRow).netProfit ∧
      ((compLoop cap tax .linear groups i cur lin).getD j dummyCompRow).linearEquityRef
          = lin + (((compLoop cap tax .linear groups i cur lin).take (j + 1)).map
              CompRow.rawProfit).sum := by
  intro groups
  induction groups with
  | nil =>
    intro i cur lin j hj
    simp [compLoop] at hj
  | cons g rest ih =>
    intro i cur lin j hj
    obtain ⟨y, raw⟩ := g
    cases j with
    | zero =>
      refine ⟨by simp [compLoop], by simp [compLoop], by simp [compLoop], ?_⟩
      simp [compLoop]
    | succ j' =>
      have hj' : j' < (compLoop cap tax .linear rest (i + 1)
          (cur + (raw * (1 + (i : Rat))
            - (if 0 < raw * (1 + (i : Rat))
               then raw * (1 + (i : Rat)) * (tax / 100) else 0)))
          (lin + raw)).length := by
        simpa [compLoop] using hj
      have h := ih (i + 1)
        (cur + (raw * (1 + (i : Rat))
          - (if 0 < raw * (1 + (i : Rat))
             then raw * (1 + (i : Rat)) * (tax / 100) else 0)))
        (lin + raw) j' hj'
      have hcast : ((i + 1 + j' : Nat) : Rat) = ((i + (j' + 1) : Nat) : Rat) := by
        congr 1
        omega
      refine ⟨?_, ?_, ?_, ?_⟩
      · simpa [compLoop, hcast] using h.1
      · simpa [compLoop] using h.2.1
      · simpa [compLoop] using h.2.2.1
      · have h4 := h.2.2.2
        simp only [compLoop, List.getD_cons_succ, List.take_succ_cons,
          List.map_cons, List.sum_cons]
        rw [h4]
        ring

set_option maxRecDepth 2000 in
/-- C5.  In linear mode, row `i` of the compounding simulation carries
scaling factor `1 + i`; tax is deducted only from a positive gross compounded
profit; the end balance is start plus net; the linear reference equals the
initial capital plus the raw (unscaled) profits accumulated so far; and on
the specification example (100000 capital, yearly profits 10000 then 20000,
no tax) the rows are exactly as the claim lists them (year-1 gross
20000 × 2 = 40000 appears as the untaxed net profit). -/
theorem compounding_linear_mode :
    (∀ (df : List TradeRecord) (cap tax : Rat) (i : Nat),
      i < (calculate_compounding_simulation df cap .linear tax).length →
      ((calculate_compounding_simulation df cap .linear tax).getD i dummyCompRow).scalingFactor
          = 1 + (i : Rat) ∧
      ((calculate_compounding_simulation df cap .linear tax).getD i dummyCompRow).taxFee
          = (if 0 < ((calculate_compounding_simulation df cap .linear tax).getD i dummyCompRow).rawProfit
                * ((calculate_compounding_simulation df cap .linear tax).getD i dummyCompRow).scalingFactor
             then ((calculate_compounding_simulation df cap .linear tax).getD i dummyCompRow).rawProfit
                * ((calculate_compounding_simulation df cap .linear tax).getD i dummyCompRow).scalingFactor
                * (tax / 100)
             else 0) ∧
      ((calculate_compounding_simulation df cap .linear tax).getD i dummyCompRow).endBalance
          = ((calculate_compounding_simulation df cap .linear tax).getD i dummyCompRow).startBalance
            + ((calculate_compounding_simulation df cap .linear tax).getD i dummyCompRow).netProfit ∧
      ((calculate_compounding_simulation df cap .linear tax).getD i dummyCompRow).linearEquityRef
          = cap + (((calculate_compounding_simulation df cap .linear tax).take (i + 1)).map
              CompRow.rawProfit).sum) ∧
    calculate_compounding_simulation dfTwoYears 100000 .linear 0 =
      [ { year := 2020, startBalance := 100000, scalingFactor := 1,
          rawProfit := 10000, taxFee := 0, netProfit := 10000,
          endBalance := 110000, yearlyGrowthPct := 10,
          linearEquityRef := 110000 },
        { year := 2021, startBalance := 110000, scalingFactor := 2,
          rawProfit := 20000, taxFee := 0, netProfit := 40000,
          endBalance := 150000, yearlyGrowthPct := 400 / 11,
          linearEquityRef := 130000 } ] := by
  constructor
  · intro df cap tax i hi
    have h := compLoop_linear_getD cap tax
      ((years_list df).map (fun y => (y, yearly_groups df y))) 0 cap cap i
      (by simpa [calculate_compounding_simulation] using hi)
    simpa [calculate_compounding_simulation] using h
  · have hyears : years_list dfTwoYears = [2020, 2021] := by decide
    have hg1 : yearly_groups dfTwoYears 2020 = 10000 := by
      norm_num [yearly_groups, dfTwoYears, List.filter]
    have hg2 : yearly_groups dfTwoYears 2021 = 20000 := by
      norm_num [yearly_groups, dfTwoYears, List.filter]
    simp only [calculate_compounding_simulation, hyears, List.map_cons,
      List.map_nil, hg1, hg2]
    norm_num [compLoop]

/-- C5, witness: row 0 of the example simulation has scaling factor 1. -/
theorem compounding_linear_mode_witness :
    0 < (calculate_compounding_simulation dfTwoYears 100000 .linear 0).length ∧
    ((calculate_compounding_simulation dfTwoYears 100000 .linear 0).getD 0
        dummyCompRow).scalingFactor = 1 + ((0 : Nat) : Rat) := by
  have hlen : 0 < (calculate_compounding_simulation dfTwoYears 100000 .linear 0).length := by
    with_unfolding_all decide
  exact ⟨hlen, (compounding_linear_mode.1 dfTwoYears 100000 0 0 hlen).1⟩

/-! ### C6: Grand Total yearly return -/

theorem sum_map_ite_eq {κ : Type} [DecidableEq κ] (c : κ) (v : Rat) :
    ∀ (keys : List κ), keys.Nodup →
      (keys.map (fun k => if c = k then v else 0)).sum
        = if c ∈ keys then v else 0 := by
  intro keys
  induction keys with
  | nil => intro _; simp
  | cons k ks ih =>
    intro hnd
    obtain ⟨hk, hks⟩ := List.nodup_cons.mp hnd
    by_cases hck : c = k
    · subst hck
      have : c ∉ ks := hk
      simp [ih hks, this]
    · simp [hck, ih hks]

theorem sum_map_add_distrib {κ : Type} (g h : κ → Rat) :
    ∀ keys : List κ,
      (keys.map (fun k => g k + h k)).sum = (keys.map g).sum + (keys.map h).sum := by
  intro keys
  induction keys with
  | nil => simp
  | cons k ks ih => simp [ih]; ring

theorem partition_sum {α κ : Type} [DecidableEq κ] (key : α → κ) (f : α → Rat) :
    ∀ (l : List α) (keys : List κ), keys.Nodup → (∀ a ∈ l, key a ∈ keys) →
      (keys.map (fun k => ((l.filter (fun a => decide (key a = k))).map f).sum)).sum
        = (l.map f).sum := by
  intro l
  induction l with
  | nil => intro keys _ _; simp
  | cons a t ih =>
    intro keys hnd hcov
    have hstep : ∀ k ∈ keys,
        (((a :: t).filter (fun x => decide (key x = k))).map f).sum
          = (if key a = k then f a else 0)
            + ((t.filter (fun x => decide (key x = k))).map f).sum := by
      intro k _
      by_cases h : key a = k <;> simp [List.filter_cons, h]
    rw [List.map_congr_left hstep, sum_map_add_distrib,
      sum_map_ite_eq (key a) (f a) keys hnd,
      ih keys hnd (fun b hb => hcov b (by simp [hb])),
      if_pos (hcov a (by simp))]
    simp

theorem yearly_total_eq_year_sum (df : List TradeRecord) (y : Int) :
    yearly_total df y
      = ((df.filter (fun r => decide (r.year = y))).map TradeRecord.netPnl).sum := by
  unfold yearly_total monthly_sum
  have hsplit : ∀ m ∈ List.finRange 12,
      ((df.filter (fun r => decide (r.year = y) && decide (r.month = m))).map
        TradeRecord.netPnl).sum
        = (((df.filter (fun r => decide (r.year = y))).filter
            (fun r => decide (r.month = m))).map TradeRecord.netPnl).sum := by
    intro m _
    rw [List.filter_filter]
    have hcomm : ∀ r ∈ df,
        (decide (r.year = y) && decide (r.month = m))
          = (decide (r.month = m) && decide (r.year = y)) := by
      intro r _
      exact Bool.and_comm _ _
    rw [List.filter_congr hcomm]
  rw [List.map_congr_left hsplit]
  exact partition_sum TradeRecord.month TradeRecord.netPnl
    (df.filter (fun r => decide (r.year = y))) (List.finRange 12)
    (List.nodup_finRange 12) (fun a _ => List.mem_finRange _)

theorem sum_years_eq_total (df : List TradeRecord) :
    ((years_list df).map (fun y =>
      ((df.filter (fun r => decide (r.year = y))).map TradeRecord.netPnl).sum)).sum
      = total_profit df := by
  unfold total_profit
  refine partition_sum TradeRecord.year TradeRecord.netPnl df (years_list df) ?_ ?_
  · exact ((sortAsc_perm _).nodup_iff).mpr (List.nodup_dedup _)
  · intro r hr
    exact ((sortAsc_perm _).mem_iff).mpr
      (List.mem_dedup.mpr (List.mem_map_of_mem TradeRecord.year hr))

/-- C6.  The Grand Total row's `Yearly Return (%)` is recomputed from the
grand total: it equals the sum of all Yearly Totals divided by the
investment, times 100 (equivalently, the dataset's total net profit over the
investment, times 100) — not a sum or average of per-year percentages. -/
theorem matrix_grand_total_return (df : List TradeRecord) (investment : Rat) :
    (create_matrix df investment).grandTotal.yearlyReturnPct
        = (((create_matrix df investment).rows.map MatrixRow.yearlyTotal).sum)
          / investment * 100 ∧
    (create_matrix df investment).grandTotal.yearlyReturnPct
        = total_profit df / investment * 100 := by
  constructor
  · simp [create_matrix, List.map_map, Function.comp_def]
  · have hmap : ((years_list df).map (fun y => yearly_total df y)).sum
        = total_profit df := by
      rw [List.map_congr_left (fun y _ => yearly_total_eq_year_sum df y)]
      exact sum_years_eq_total df
    simp only [create_matrix]
    rw [hmap]

/-! ### C1: Sortino downside-deviation denominator -/

/-- Transcribed from the claim wording (spec §4.2): the mean of squared
negative excess returns whose denominator population is ALL days of the
zero-filled daily series, non-negative-excess days contributing 0. -/
def downside_mean_sq_claimed (df : List TradeRecord) (investment rf_rate : Rat) :
    PVal :=
  pmean ((daily_rets df investment).map
    (fun x => if x < daily_rf rf_rate then (x - daily_rf rf_rate) ^ 2 else 0))

/-- The downside deviation the claim describes: square root of the all-days
mean. -/
noncomputable def downside_dev_claimed (df : List TradeRecord)
    (investment rf_rate : Rat) : Option ℝ :=
  (downside_mean_sq_claimed df investment rf_rate).map (fun q => Real.sqrt (q : ℝ))

theorem dailyPnl_dfSortinoEx : dailyPnl dfSortinoEx = [10, -10, 10] := by
  have hrange : List.range ((dateMax dfSortinoEx - dateMin dfSortinoEx).toNat + 1)
      = [0, 1, 2] := by decide
  have hmin : dateMin dfSortinoEx = 0 := by decide
  unfold dailyPnl
  rw [hrange, hmin]
  norm_num [dfSortinoEx, List.filter]

theorem daily_rets_dfSortinoEx :
    daily_rets dfSortinoEx 100 = [1 / 10, -(1 / 10), 1 / 10] := by
  rw [daily_rets, dailyPnl_dfSortinoEx]
  norm_num

theorem neg_excess_dfSortinoEx :
    neg_excess_rets dfSortinoEx 100 0 = [-(1 / 10)] := by
  unfold neg_excess_rets
  rw [daily_rets_dfSortinoEx]
  norm_num [daily_rf, List.filter]

theorem downside_mean_sq_dfSortinoEx :
    downside_mean_sq dfSortinoEx 100 0 = some (1 / 100) := by
  unfold downside_mean_sq
  rw [neg_excess_dfSortinoEx]
  norm_num [pmean]

theorem downside_mean_sq_claimed_dfSortinoEx :
    downside_mean_sq_claimed dfSortinoEx 100 0 = some (1 / 300) := by
  unfold downside_mean_sq_claimed
  rw [daily_rets_dfSortinoEx]
  norm_num [daily_rf, pmean]

/-- C1, counterexample.  On the dataset with daily returns
`[1/10, -1/10, 1/10]` and `rf_rate = 0`, the code's downside deviation is
`sqrt(1/100)` (mean over the single below-rf day, metrics.py:127-128) while
the claim's all-days denominator would give `sqrt(1/300)`: the two disagree,
so the denominator population is not all days. -/
theorem downside_dev_denominator_counterexample :
    downside_dev dfSortinoEx 100 0 ≠ downside_dev_claimed dfSortinoEx 100 0 := by
  have h1 : downside_dev dfSortinoEx 100 0
      = some (Real.sqrt (((1 : Rat) / 100 : Rat) : ℝ)) := by
    rw [downside_dev, downside_mean_sq_dfSortinoEx]
    rfl
  have h2 : downside_dev_claimed dfSortinoEx 100 0
      = some (Real.sqrt (((1 : Rat) / 300 : Rat) : ℝ)) := by
    rw [downside_dev_claimed, downside_mean_sq_claimed_dfSortinoEx]
    rfl
  rw [h1, h2]
  intro hc
  have heq := Option.some.inj hc
  have hlt : Real.sqrt (((1 : Rat) / 300 : Rat) : ℝ)
      < Real.sqrt (((1 : Rat) / 100 : Rat) : ℝ) :=
    Real.sqrt_lt_sqrt (by positivity) (by norm_num)
  rw [heq] at hlt
  exact lt_irrefl _ hlt

theorem neg_excess_all_neg (df : List TradeRecord) (investment rf_rate : Rat) :
    ∀ z ∈ neg_excess_rets df investment rf_rate, z < 0 := by
  intro z hz
  obtain ⟨x, hx, rfl⟩ := List.mem_map.mp hz
  have hfil := List.of_mem_filter hx
  simp only [decide_eq_true_eq] at hfil
  linarith

theorem sum_sq_pos_of_neg {l : List Rat} (hne : l ≠ []) (hneg : ∀ x ∈ l, x < 0) :
    0 < (l.map (fun x => x ^ 2)).sum := by
  cases l with
  | nil => exact absurd rfl hne
  | cons x t =>
    have hx : 0 < x ^ 2 := by
      rw [pow_two]
      exact mul_pos_of_neg_of_neg (hneg x (by simp)) (hneg x (by simp))
    have ht : 0 ≤ (t.map (fun z => z ^ 2)).sum := by
      apply List.sum_nonneg
      intro z hz
      obtain ⟨w, _, rfl⟩ := List.mem_map.mp hz
      exact sq_nonneg w
    simpa using add_pos_of_pos_of_nonneg hx ht

/-- C1, amended.  Whenever at least one day's return lies strictly below
`daily_rf`, the downside deviation is the square root of the mean of squared
negative excess returns over ONLY those below-rf days (the denominator is
their count, not the count of all days), it is then nonzero, and
`sortino = mean(excess returns) / downside_deviation * sqrt 252`. -/
theorem sortino_neg_day_denominator (df : List TradeRecord)
    (investment rf_rate : Rat) (h : neg_excess_rets df investment rf_rate ≠ []) :
    downside_dev df investment rf_rate
        = some (Real.sqrt
            (((((neg_excess_rets df investment rf_rate).map (fun x => x ^ 2)).sum
              / ((neg_excess_rets df investment rf_rate).length : Rat)) : Rat) : ℝ)) ∧
    sortino df investment rf_rate
        = some ((listMean (daily_excess_rets df investment rf_rate) : ℝ)
            / Real.sqrt
              (((((neg_excess_rets df investment rf_rate).map (fun x => x ^ 2)).sum
                / ((neg_excess_rets df investment rf_rate).length : Rat)) : Rat) : ℝ)
            * Real.sqrt 252) := by
  have hmsq : downside_mean_sq df investment rf_rate
      = some (((neg_excess_rets df investment rf_rate).map (fun x => x ^ 2)).sum
          / ((neg_excess_rets df investment rf_rate).length : Rat)) := by
    unfold downside_mean_sq pmean
    rw [if_neg (by simpa using (List.length_pos.mpr h).ne')]
    simp
  have hpos : 0 < ((neg_excess_rets df investment rf_rate).map (fun x => x ^ 2)).sum :=
    sum_sq_pos_of_neg h (neg_excess_all_neg df investment rf_rate)
  have hlen : 0 < ((neg_excess_rets df investment rf_rate).length : Rat) := by
    exact_mod_cast List.length_pos.mpr h
  have hv : 0 < ((neg_excess_rets df investment rf_rate).map (fun x => x ^ 2)).sum
      / ((neg_excess_rets df investment rf_rate).length : Rat) := div_pos hpos hlen
  constructor
  · rw [downside_dev, hmsq]
    simp
  · simp only [sortino, hmsq]
    rw [if_neg (ne_of_gt hv)]

/-- C1, amended, witness at the counterexample dataset (it has a below-rf
day). -/
theorem sortino_neg_day_denominator_witness :
    neg_excess_rets dfSortinoEx 100 0 ≠ [] ∧
    sortino dfSortinoEx 100 0
        = some ((listMean (daily_excess_rets dfSortinoEx 100 0) : ℝ)
            / Real.sqrt
              (((((neg_excess_rets dfSortinoEx 100 0).map (fun x => x ^ 2)).sum
                / ((neg_excess_rets dfSortinoEx 100 0).length : Rat)) : Rat) : ℝ)
            * Real.sqrt 252) := by
  have hne : neg_excess_rets dfSortinoEx 100 0 ≠ [] := by
    rw [neg_excess_dfSortinoEx]
    simp
  exact ⟨hne, (sortino_neg_day_denominator dfSortinoEx 100 0 hne).2⟩

/-! ### C2: zero-denominator policy and NaN leaks -/

theorem pdiv_none_right (a : PVal) : pdiv a none = none := by
  cases a <;> rfl

theorem pdiv_none_left (b : PVal) : pdiv none b = none := by
  cases b <;> rfl

/-- C2, counterexample.  The single-winning-trade dataset has no losing
trade, yet `Risk:Reward` is NaN, not 0: `avg_loss` is the mean of an empty
selection (NaN), NaN passes the `!= 0` guard, and `avg_win / NaN` is NaN
(metrics.py:143-145). -/
theorem risk_reward_no_loss_nan :
    dfWinOnly.filter (fun r => decide (r.netPnl < 0)) = [] ∧
    rr_ratio dfWinOnly = none := by
  constructor
  · norm_num [dfWinOnly, List.filter]
  · norm_num [rr_ratio, avg_loss, avg_win, pmean, pabs, pneZero, pdiv,
      dfWinOnly, List.filter]

theorem sum_neg_of_all_neg {l : List Rat} (hne : l ≠ []) (hneg : ∀ x ∈ l, x < 0) :
    l.sum < 0 := by
  induction l with
  | nil => exact absurd rfl hne
  | cons x t ih =>
    cases t with
    | nil => simpa using hneg x (by simp)
    | cons y u =>
      have hx := hneg x (by simp)
      have ht := ih (by simp) (fun z hz => hneg z (by simp [hz]))
      simp only [List.sum_cons] at ht ⊢
      linarith

/-- The `avg_loss != 0` guard always passes: either there is no losing trade
(`avg_loss` is NaN and NaN != 0 is True) or the mean loss is strictly
negative, so its absolute value is nonzero. -/
theorem avg_loss_guard_true (df : List TradeRecord) :
    pneZero (avg_loss df) = true := by
  by_cases h : df.filter (fun r => decide (r.netPnl < 0)) = []
  · simp [avg_loss, h, pmean, pabs, pneZero]
  · have hLne : (df.filter (fun r => decide (r.netPnl < 0))).map TradeRecord.netPnl ≠ [] := by
      simpa using h
    have hneg : ∀ x ∈ (df.filter (fun r => decide (r.netPnl < 0))).map TradeRecord.netPnl,
        x < 0 := by
      intro x hx
      obtain ⟨r, hr, rfl⟩ := List.mem_map.mp hx
      have hfil := List.of_mem_filter hr
      simpa using hfil
    have hsum := sum_neg_of_all_neg hLne hneg
    have hlen : (0 : Rat) <
        ((df.filter (fun r => decide (r.netPnl < 0))).map TradeRecord.netPnl).length := by
      exact_mod_cast List.length_pos.mpr hLne
    have hmean : ((df.filter (fun r => decide (r.netPnl < 0))).map TradeRecord.netPnl).sum
        / (((df.filter (fun r => decide (r.netPnl < 0))).map TradeRecord.netPnl).length : Rat)
        < 0 := div_neg_of_neg_of_pos hsum hlen
    have habs := abs_ne_zero.mpr (ne_of_lt hmean)
    have hlenne : ((df.filter (fun r => decide (r.netPnl < 0))).map
        TradeRecord.netPnl).length ≠ 0 := (List.length_pos.mpr hLne).ne'
    have hpm : pmean ((df.filter (fun r => decide (r.netPnl < 0))).map
        TradeRecord.netPnl)
        = some (((df.filter (fun r => decide (r.netPnl < 0))).map
            TradeRecord.netPnl).sum
          / (((df.filter (fun r => decide (r.netPnl < 0))).map
            TradeRecord.netPnl).length : Rat)) := by
      unfold pmean
      rw [if_neg hlenne]
    have hal : avg_loss df
        = some |((df.filter (fun r => decide (r.netPnl < 0))).map
            TradeRecord.netPnl).sum
          / (((df.filter (fun r => decide (r.netPnl < 0))).map
            TradeRecord.netPnl).length : Rat)| := by
      unfold avg_loss
      rw [hpm]
      rfl
    rw [hal]
    simp only [pneZero]
    rw [beq_eq_false_iff_ne.mpr habs]
    rfl

set_option maxRecDepth 2000 in
/-- C2, amended.  For every nonempty dataset and positive investment the
result has all 14 fields; guards with an exactly-zero denominator resolve to
0 (Profit Factor with no losing trades, Omega with no negative daily return,
Tail Ratio with `p05 = 0`, Calmar with `Max DD = 0`, Sharpe with zero
variance); but NaN denominators pass the `!= 0` guard and propagate:
Risk:Reward is NaN whenever there is no losing or no winning trade, Sharpe
is NaN for a one-day daily series, and Sortino is NaN when no daily return
lies below `daily_rf`. -/
theorem zero_denominator_policy (df : List TradeRecord)
    (investment rf_rate : Rat) (hdf : df ≠ []) (hinv : 0 < investment) :
    (∃ m, calculate_single_sheet_metrics df investment rf_rate = some m) ∧
    (df.filter (fun r => decide (r.netPnl < 0)) = [] →
      profit_factor df = 0 ∧ rr_ratio df = none) ∧
    (df.filter (fun r => decide (0 < r.netPnl)) = [] → rr_ratio df = none) ∧
    (daily_std_sq df investment = some 0 → sharpe df investment rf_rate = some 0) ∧
    ((daily_rets df investment).length = 1 → sharpe df investment rf_rate = none) ∧
    (neg_excess_rets df investment rf_rate = [] →
      sortino df investment rf_rate = none) ∧
    (losses df investment = 0 → omega df investment = 0) ∧
    (p05 df investment = 0 → tail_ratio df investment = 0) ∧
    (max_dd df investment = some 0 → calmar df investment = some 0) := by
  refine ⟨⟨_, by rw [calculate_single_sheet_metrics, if_neg hdf]⟩, ?_, ?_, ?_, ?_, ?_, ?_, ?_, ?_⟩
  · intro h
    constructor
    · simp [profit_factor, gross_loss, h]
    · rw [rr_ratio, if_pos (avg_loss_guard_true df)]
      have : avg_loss df = none := by simp [avg_loss, h, pmean, pabs]
      rw [this, pdiv_none_right]
  · intro h
    rw [rr_ratio, if_pos (avg_loss_guard_true df)]
    have : avg_win df = none := by simp [avg_win, h, pmean]
    rw [this, pdiv_none_left]
  · intro h
    simp [sharpe, h]
  · intro h
    simp [sharpe, daily_std_sq, h]
  · intro h
    simp [sortino, downside_mean_sq, h, pmean]
  · intro h
    simp [omega, h]
  · intro h
    simp [tail_ratio, h]
  · intro h
    simp [calmar, h, pneZero]

theorem daily_rets_length (df : List TradeRecord) (inv : Rat) :
    (daily_rets df inv).length = (dateMax df - dateMin df).toNat + 1 := by
  rw [daily_rets, List.length_map, dailyPnl, List.length_map, List.length_range]

/-- C2, amended, witness at the single-winning-trade dataset. -/
theorem zero_denominator_policy_witness :
    (dfWinOnly ≠ [] ∧ (0 : Rat) < 100) ∧
    profit_factor dfWinOnly = 0 ∧
    rr_ratio dfWinOnly = none ∧
    sharpe dfWinOnly 100 0 = none ∧
    sortino dfWinOnly 100 0 = none := by
  have h := zero_denominator_policy dfWinOnly 100 0 (by decide) (by norm_num)
  have hnl : dfWinOnly.filter (fun r => decide (r.netPnl < 0)) = [] := by
    norm_num [dfWinOnly, List.filter]
  have hlen : (daily_rets dfWinOnly 100).length = 1 := by
    have h0 : ((dateMax dfWinOnly - dateMin dfWinOnly).toNat + 1) = 1 := by decide
    rw [daily_rets_length, h0]
  have hd : dailyPnl dfWinOnly = [100] := by
    have hrange : List.range ((dateMax dfWinOnly - dateMin dfWinOnly).toNat + 1)
        = [0] := by decide
    have hmin : dateMin dfWinOnly = 0 := by decide
    unfold dailyPnl
    rw [hrange, hmin]
    norm_num [dfWinOnly, List.filter]
  have hneg : neg_excess_rets dfWinOnly 100 0 = [] := by
    unfold neg_excess_rets
    rw [daily_rets, hd]
    norm_num [daily_rf, List.filter]
  exact ⟨⟨by decide, by norm_num⟩, (h.2.1 hnl).1, (h.2.1 hnl).2,
    h.2.2.2.2.1 hlen, h.2.2.2.2.2.1 hneg⟩

/-! ### C8: Max DD sign and dip characterization -/

theorem cummaxAux_length (m : Rat) (l : List Rat) :
    (cummaxAux m l).length = l.length := by
  induction l generalizing m with
  | nil => rfl
  | cons y ys ih => simp [cummaxAux, ih]

theorem cummax_length (l : List Rat) : (cummax l).length = l.length := by
  cases l with
  | nil => rfl
  | cons x xs => simp [cummax, cummaxAux_length]

theorem le_cummaxAux_pair (l : List Rat) :
    ∀ (m : Rat), ∀ pr ∈ l.zip (cummaxAux m l), pr.1 ≤ pr.2 := by
  induction l with
  | nil =>
    intro m pr hpr
    simp at hpr
  | cons y ys ih =>
    intro m pr hpr
    simp only [cummaxAux, List.zip_cons_cons, List.mem_cons] at hpr
    rcases hpr with h | h
    · rw [h]
      exact le_max_right m y
    · exact ih (max m y) pr h

theorem le_cummax_pair (l : List Rat) :
    ∀ pr ∈ l.zip (cummax l), pr.1 ≤ pr.2 := by
  cases l with
  | nil =>
    intro pr hpr
    simp at hpr
  | cons x xs =>
    intro pr hpr
    simp only [cummax, List.zip_cons_cons, List.mem_cons] at hpr
    rcases hpr with h | h
    · rw [h]
    · exact le_cummaxAux_pair xs x pr h

theorem zipWith_sub_zipWith (g : Rat → Rat → PVal) :
    ∀ (e p : List Rat),
      (e.zipWith (fun a b => a - b) p).zipWith g p
        = (e.zip p).map (fun pr => g (pr.1 - pr.2) pr.2) := by
  intro e
  induction e with
  | nil => intro p; simp
  | cons a e' ih =>
    intro p
    cases p with
    | nil => simp
    | cons b p' => simp [ih]

theorem filterMap_id_map_eq {α β : Type} (f : α → Option β) (g : α → β)
    (l : List α) (h : ∀ a ∈ l, f a = some (g a)) :
    (l.map f).filterMap id = l.map g := by
  induction l with
  | nil => rfl
  | cons a t ih =>
    simp only [List.map_cons, List.filterMap_cons, h a (by simp), id]
    rw [ih (fun b hb => h b (by simp [hb]))]

theorem listMin_spec :
    ∀ (l : List Rat), l ≠ [] →
      ∃ m, listMin l = some m ∧ m ∈ l ∧ ∀ x ∈ l, m ≤ x := by
  intro l
  induction l with
  | nil => intro h; exact absurd rfl h
  | cons x xs ih =>
    intro _
    by_cases hxs : xs = []
    · subst hxs
      exact ⟨x, by simp [listMin], by simp, by simp⟩
    · obtain ⟨m, hm, hmem, hle⟩ := ih hxs
      refine ⟨min x m, by simp [listMin, hm], ?_, ?_⟩
      · rcases le_total x m with h | h
        · simp [min_eq_left h]
        · rw [min_eq_right h]
          exact List.mem_cons_of_mem x hmem
      · intro z hz
        rcases List.mem_cons.mp hz with h1 | hz'
        · rw [h1]
          exact min_le_left x m
        · exact le_trans (min_le_right x m) (hle z hz')

/-- C8, counterexample.  On investment 100 with trades -300 then -100 the
running peak is negative (-200), the drawdown percentage at the second row
is +50, and the reported `Max DD %` is 0 even though the equity (-300) is
strictly below its running peak (-200): the claimed "0 iff never dips" fails. -/
theorem max_dd_dip_counterexample :
    max_dd dfNegEquity 100 = some 0 ∧
    (ddSeries dfNegEquity 100).any (fun d => decide (d < 0)) = true := by
  have heq : equitySeries dfNegEquity 100 = [-200, -300] := by
    norm_num [equitySeries, cum_pnl, cumsum, dfNegEquity]
  have hpk : peakSeries dfNegEquity 100 = [-200, -200] := by
    rw [peakSeries, heq]
    norm_num [cummax, cummaxAux]
  have hdd : ddSeries dfNegEquity 100 = [0, -100] := by
    rw [ddSeries, heq, hpk]
    norm_num [List.zipWith]
  have hddp : ddPctSeries dfNegEquity 100 = [some 0, some 50] := by
    rw [ddPctSeries, hdd, hpk]
    norm_num [List.zipWith, pdiv, pmul]
  constructor
  · rw [max_dd, pminSkipNan, hddp]
    norm_num [listMin, List.filterMap]
  · rw [hdd]
    norm_num [List.any]

set_option maxRecDepth 2000 in
/-- C8, amended.  Provided the running peak stays strictly positive, the
`Max DD %` exists, is at most 0, and equals 0 exactly when the running
equity never dips strictly below its running peak (pairs of the zipped
equity/peak series). -/
theorem max_dd_nonpos_iff (df : List TradeRecord) (investment : Rat)
    (hdf : df ≠ []) (hinv : 0 < investment)
    (hpk : ∀ q ∈ peakSeries df investment, 0 < q) :
    ∃ m, max_dd df investment = some m ∧ m ≤ 0 ∧
      (m = 0 ↔ ∀ pr ∈ (equitySeries df investment).zip (peakSeries df investment),
        pr.2 ≤ pr.1) := by
  have hddp : ddPctSeries df investment
      = ((equitySeries df investment).zip (peakSeries df investment)).map
          (fun pr => pmul (pdiv (some (pr.1 - pr.2)) (some pr.2)) 100) := by
    unfold ddPctSeries ddSeries
    exact zipWith_sub_zipWith _ _ _
  have hsome : ∀ pr ∈ (equitySeries df investment).zip (peakSeries df investment),
      pmul (pdiv (some (pr.1 - pr.2)) (some pr.2)) 100
        = some ((pr.1 - pr.2) / pr.2 * 100) := by
    intro pr hpr
    have hq := hpk pr.2 (List.of_mem_zip hpr).2
    simp [pdiv, pmul, ne_of_gt hq]
  have hvals : (ddPctSeries df investment).filterMap id
      = ((equitySeries df investment).zip (peakSeries df investment)).map
          (fun pr => (pr.1 - pr.2) / pr.2 * 100) := by
    rw [hddp]
    exact filterMap_id_map_eq _ _ _ hsome
  have hene : equitySeries df investment ≠ [] := by
    intro hnil
    have h1 : cum_pnl df = [] := List.map_eq_nil_iff.mp hnil
    exact cumsum_ne_nil (l := df.map TradeRecord.netPnl)
      (by simpa using hdf) h1
  have hlenp : (peakSeries df investment).length
      = (equitySeries df investment).length := cummax_length _
  have hzlen : ((equitySeries df investment).zip (peakSeries df investment)).length
      = (equitySeries df investment).length := by
    rw [List.length_zip, hlenp, min_self]
  have hzne : (equitySeries df investment).zip (peakSeries df investment) ≠ [] := by
    apply List.length_pos.mp
    rw [hzlen]
    exact List.length_pos.mpr hene
  have hvalsne : (ddPctSeries df investment).filterMap id ≠ [] := by
    rw [hvals]
    simpa using hzne
  obtain ⟨m, hm, hmem, hle⟩ := listMin_spec _ hvalsne
  have hmaxdd : max_dd df investment = some m := by
    rw [max_dd, pminSkipNan]
    exact hm
  rw [hvals] at hmem
  obtain ⟨pr, hprz, hprm⟩ := List.mem_map.mp hmem
  have hd_le : pr.1 ≤ pr.2 := le_cummax_pair (equitySeries df investment) pr hprz
  have hq := hpk pr.2 (List.of_mem_zip hprz).2
  have hmle0 : m ≤ 0 := by
    rw [← hprm]
    have h1 : pr.1 - pr.2 ≤ 0 := by linarith
    have h2 : (pr.1 - pr.2) / pr.2 ≤ 0 :=
      div_nonpos_of_nonpos_of_nonneg h1 (le_of_lt hq)
    linarith
  refine ⟨m, hmaxdd, hmle0, ?_, ?_⟩
  · intro hm0 pr' hpr'
    have hval' : ((pr'.1 - pr'.2) / pr'.2 * 100)
        ∈ (ddPctSeries df investment).filterMap id := by
      rw [hvals]
      exact List.mem_map_of_mem _ hpr'
    have hge := hle _ hval'
    rw [hm0] at hge
    have hq' := hpk pr'.2 (List.of_mem_zip hpr').2
    by_contra hcon
    push_neg at hcon
    have hdneg : pr'.1 - pr'.2 < 0 := by linarith
    have : (pr'.1 - pr'.2) / pr'.2 < 0 := div_neg_of_neg_of_pos hdneg hq'
    linarith
  · intro hall
    have h2 := hall pr hprz
    have hz : pr.1 - pr.2 = 0 := by linarith
    rw [← hprm, hz]
    simp

/-- C8, amended, witness: a dataset whose equity stays positive. -/
theorem max_dd_nonpos_iff_witness :
    (dfSortinoEx ≠ [] ∧ (0 : Rat) < 100 ∧
      ∀ q ∈ peakSeries dfSortinoEx 100, 0 < q) ∧
    (∃ m, max_dd dfSortinoEx 100 = some m ∧ m ≤ 0 ∧
      (m = 0 ↔ ∀ pr ∈ (equitySeries dfSortinoEx 100).zip (peakSeries dfSortinoEx 100),
        pr.2 ≤ pr.1)) := by
  have hpkv : peakSeries dfSortinoEx 100 = [110, 110, 110] := by
    have heq : equitySeries dfSortinoEx 100 = [110, 100, 110] := by
      norm_num [equitySeries, cum_pnl, cumsum, dfSortinoEx]
    rw [peakSeries, heq]
    norm_num [cummax, cummaxAux]
  have hpk : ∀ q ∈ peakSeries dfSortinoEx 100, 0 < q := by
    rw [hpkv]
    intro q hq
    rcases List.mem_cons.mp hq with rfl | hq'
    · norm_num
    rcases List.mem_cons.mp hq' with rfl | hq''
    · norm_num
    rcases List.mem_cons.mp hq'' with rfl | hq'''
    · norm_num
    · simp at hq'''
  exact ⟨⟨by decide, by norm_num, hpk⟩,
    max_dd_nonpos_iff dfSortinoEx 100 (by decide) (by norm_num) hpk⟩

/-! ### C7: leaderboard windowing, slippage and exclusion -/

theorem apply_slippage_eq_map (df : List TradeRecord) (slip : Rat) :
    apply_slippage df slip
      = df.map (fun r => { r with netPnl := r.netPnl - slip }) := by
  unfold apply_slippage
  by_cases h : df = [] ∨ slip = 0
  · rw [if_pos h]
    rcases h with h | h
    · rw [h]
      rfl
    · subst h
      have hrec : ∀ r ∈ df,
          ({ r with netPnl := r.netPnl - 0 } : TradeRecord) = r := by
        intro r _
        rw [sub_zero]
      rw [List.map_congr_left hrec, List.map_id']
  · rw [if_neg h]

theorem metrics_none_iff (df : List TradeRecord) (investment rf_rate : Rat) :
    calculate_single_sheet_metrics df investment rf_rate = none ↔ df = [] := by
  unfold calculate_single_sheet_metrics
  by_cases h : df = [] <;> simp [h]

theorem apply_slippage_nil_iff (df : List TradeRecord) (slip : Rat) :
    apply_slippage df slip = [] ↔ df = [] := by
  rw [apply_slippage_eq_map]
  simp [List.map_eq_nil_iff]

/-- C7.  The leaderboard is exactly the per-strategy fold that filters
records to `start ≤ date ≤ end` (inclusive at both ends), subtracts the
slippage from every remaining record's `Net P&L`, and keeps a named row only
when metrics exist; a strategy's metrics are `None` exactly when its
windowed frame is empty, so such strategies are silently excluded. -/
theorem leaderboard_window_slippage (pairs : List (String × List TradeRecord))
    (start_date end_date : Int) (investment rf_rate slippage : Rat) :
    get_optimized_leaderboard pairs start_date end_date investment rf_rate slippage
      = pairs.foldr (fun p acc =>
          match calculate_single_sheet_metrics
              ((p.2.filter (fun r =>
                decide (start_date ≤ r.date) && decide (r.date ≤ end_date))).map
                (fun r => { r with netPnl := r.netPnl - slippage }))
              investment rf_rate with
          | some m => { strategy := p.1.replace ".xlsx" "", metrics := m } :: acc
          | none => acc) [] ∧
    ∀ p ∈ pairs,
      (calculate_single_sheet_metrics
          (apply_slippage (windowFilter p.2 start_date end_date) slippage)
          investment rf_rate = none
        ↔ windowFilter p.2 start_date end_date = []) := by
  constructor
  · unfold get_optimized_leaderboard windowFilter
    have hfun : ∀ (p : String × List TradeRecord) (acc : List LeaderboardRow),
        (match calculate_single_sheet_metrics
            (apply_slippage (p.2.filter (fun r =>
              decide (start_date ≤ r.date) && decide (r.date ≤ end_date))) slippage)
            investment rf_rate with
        | some m =>
          ({ strategy := p.1.replace ".xlsx" "", metrics := m } : LeaderboardRow) :: acc
        | none => acc)
          = (match calculate_single_sheet_metrics
              ((p.2.filter (fun r =>
                decide (start_date ≤ r.date) && decide (r.date ≤ end_date))).map
                (fun r => { r with netPnl := r.netPnl - slippage }))
              investment rf_rate with
          | some m =>
            ({ strategy := p.1.replace ".xlsx" "", metrics := m } : LeaderboardRow) :: acc
          | none => acc) := by
      intro p acc
      rw [apply_slippage_eq_map]
    exact List.foldr_ext _ _ _ (fun p _ acc => hfun p acc)
  · intro p hp
    rw [metrics_none_iff, apply_slippage_nil_iff]

/-- Named pair list for the C7 witness. -/
def pairsEx : List (String × List TradeRecord) := [("alpha.xlsx", dfSortinoEx)]

/-- C7, witness: the exclusion characterization at a concrete pair. -/
theorem leaderboard_window_slippage_witness :
    ("alpha.xlsx", dfSortinoEx) ∈ pairsEx ∧
    (calculate_single_sheet_metrics
        (apply_slippage (windowFilter dfSortinoEx 0 10) 1) 100 0 = none
      ↔ windowFilter dfSortinoEx 0 10 = []) :=
  ⟨List.mem_singleton.mpr rfl,
    (leaderboard_window_slippage pairsEx 0 10 100 0 1).2 _
      (List.mem_singleton.mpr rfl)⟩

end Quant
